import Mathlib

/-
Verification of the ftth-dhcp DHCP client core.

The two protocol modules (src/ipv4.rs, src/ipv6.rs) are shallowly embedded
below.  Socket handling is external; the embedding starts from a decoded
message value (the output of the wire codec) and models the pure parts of
the client: message building (Dhcp4Client::request) and response
interpretation (Dhcp4Client::recv, Dhcp6Client::recv, Dhcp6Client::local_duid).

Machine integers are modelled as Nat (all arithmetic in the source is
index arithmetic on usize that cannot overflow at these sizes, plus u32
big-endian reconstruction which is exact).  Rust strings are modelled as
their UTF-8 byte lists.  Fallible paths return Except; the one place the
Rust source can abort (Option::unwrap in Dhcp6Client::recv) is modelled by
a dedicated fault outcome.
-/

/-- IPv4 address, four octets. -/
structure Ipv4Addr where
  a : Nat
  b : Nat
  c : Nat
  d : Nat
deriving DecidableEq

/-- The all-zero IPv4 address, Ipv4Addr::from_bits(0) in the source. -/
def ipv4Zero : Ipv4Addr := ⟨0, 0, 0, 0⟩

/-- IPv6 address, sixteen octets. -/
structure Ipv6Addr where
  octets : List Nat
deriving DecidableEq

/-- DHCPv4 message types used by the client. -/
inductive Dhcp4MessageType where
  | discover
  | offer
  | request
  | decline
  | ack
  | nak
  | release
deriving DecidableEq

/-- BOOTP opcode. -/
inductive Opcode where
  | bootRequest
  | bootReply
deriving DecidableEq

/-- Hardware type; the client only uses Ethernet. -/
inductive HType where
  | eth
deriving DecidableEq

/-- DHCPv4 option codes as used in the parameter request list. -/
inductive Dhcp4OptionCode where
  | subnetMask
  | router
  | classlessStaticRoute
  | unknownCode (n : Nat)
deriving DecidableEq

/-- One static route extracted from a classless-static-route option. -/
structure Dhcp4Route where
  prefix_addr : Ipv4Addr
  prefix_len : Nat
  gateway : Ipv4Addr
deriving DecidableEq

/-- DHCPv4 options, mirroring the dhcproto variants the client touches.
The classless-static-route payload is carried as (network, prefix length,
gateway) triples, the decoded form the source reads back. -/
inductive Dhcp4Option where
  | subnetMask (mask : Ipv4Addr)
  | router (addrs : List Ipv4Addr)
  | addressLeaseTime (t : Nat)
  | messageType (t : Dhcp4MessageType)
  | serverIdentifier (addr : Ipv4Addr)
  | renewal (t1 : Nat)
  | rebinding (t2 : Nat)
  | classlessStaticRoute (routes : List (Ipv4Addr × Nat × Ipv4Addr))
  | requestedIpAddress (addr : Ipv4Addr)
  | parameterRequestList (codes : List Dhcp4OptionCode)
  | maxMessageSize (n : Nat)
  | clientIdentifier (id : List Nat)
  | unknown (code : Nat) (data : List Nat)
deriving DecidableEq

/-- Decoded DHCPv4 message: BOOTP header fields plus the option set.
The source's option set is keyed by code with at most one option per code;
it is modelled as a list, folded in iteration order. -/
structure Dhcp4Message where
  opcode : Opcode
  htype : HType
  xid : Nat
  ciaddr : Ipv4Addr
  yiaddr : Ipv4Addr
  siaddr : Ipv4Addr
  giaddr : Ipv4Addr
  chaddr : List Nat
  broadcastFlag : Bool
  opts : List Dhcp4Option
deriving DecidableEq

/-- Request sub-type selecting header addressing and option layout. -/
inductive Dhcp4RequestType where
  | select
  | initReboot
  | renew
  | rebind
deriving DecidableEq

/-- Big-endian byte decomposition of a 32-bit value, u32::to_be_bytes. -/
def u32BeBytes (n : Nat) : List Nat :=
  [n / 16777216 % 256, n / 65536 % 256, n / 256 % 256, n % 256]

/-- Slice data[s..e] of a byte list, defined on the bounds-checked paths
where the source slices (s and e already validated against the length). -/
def listSlice (l : List Nat) (s e : Nat) : List Nat :=
  (l.drop s).take (e - s)

/-- Conversion of a 4-byte slice to an address; the source's
try_into().unwrap() runs only under a length guard, so the fallback
branch is unreachable on every call site. -/
def ipv4OfList : List Nat → Ipv4Addr
  | [a, b, c, d] => ⟨a, b, c, d⟩
  | _ => ipv4Zero

/-- Conversion of a 16-byte slice to an IPv6 address. -/
def ipv6OfList (l : List Nat) : Ipv6Addr := ⟨l⟩

/-- Big-endian u32 from the first four bytes, u32::from_be_bytes. -/
def beU32 (l : List Nat) : Nat :=
  l.getD 0 0 * 16777216 + l.getD 1 0 * 65536 + l.getD 2 0 * 256 + l.getD 3 0

/-- UTF-8 continuation byte test. -/
def utf8Cont (b : Nat) : Bool := 128 ≤ b && b ≤ 191

/-- Strict UTF-8 validity of a byte list, the check behind str::from_utf8
(and hence CStr::to_str) in the source. -/
def isValidUtf8 : List Nat → Bool
  | [] => true
  | b :: rest =>
    if b < 128 then isValidUtf8 rest
    else if b < 194 then false
    else if b ≤ 223 then
      match rest with
      | c1 :: r => utf8Cont c1 && isValidUtf8 r
      | [] => false
    else if b ≤ 239 then
      match rest with
      | c1 :: c2 :: r =>
        (if b = 224 then decide (160 ≤ c1) && decide (c1 ≤ 191)
         else if b = 237 then decide (128 ≤ c1) && decide (c1 ≤ 159)
         else utf8Cont c1) && utf8Cont c2 && isValidUtf8 r
      | _ => false
    else if b ≤ 244 then
      match rest with
      | c1 :: c2 :: c3 :: r =>
        (if b = 240 then decide (144 ≤ c1) && decide (c1 ≤ 191)
         else if b = 244 then decide (128 ≤ c1) && decide (c1 ≤ 143)
         else utf8Cont c1) && utf8Cont c2 && utf8Cont c3 && isValidUtf8 r
      | _ => false
    else false

/-- UTF-8 bytes of the replacement character U+FFFD. -/
def utf8Rep : List Nat := [239, 191, 189]

/-- Lossy UTF-8 decoding as performed by String::from_utf8_lossy, with each
maximal invalid subpart replaced by U+FFFD; the result is again the UTF-8
byte list of the produced string. -/
def utf8Lossy : List Nat → List Nat
  | [] => []
  | b :: rest =>
    if b < 128 then b :: utf8Lossy rest
    else if b < 194 then utf8Rep ++ utf8Lossy rest
    else if b ≤ 223 then
      match rest with
      | c1 :: r =>
        if utf8Cont c1 then b :: c1 :: utf8Lossy r
        else utf8Rep ++ utf8Lossy (c1 :: r)
      | [] => utf8Rep
    else if b ≤ 239 then
      match rest with
      | c1 :: rest1 =>
        if (if b = 224 then decide (160 ≤ c1) && decide (c1 ≤ 191)
            else if b = 237 then decide (128 ≤ c1) && decide (c1 ≤ 159)
            else utf8Cont c1) then
          match rest1 with
          | c2 :: r =>
            if utf8Cont c2 then b :: c1 :: c2 :: utf8Lossy r
            else utf8Rep ++ utf8Lossy (c2 :: r)
          | [] => utf8Rep
        else utf8Rep ++ utf8Lossy (c1 :: rest1)
      | [] => utf8Rep
    else if b ≤ 244 then
      match rest with
      | c1 :: rest1 =>
        if (if b = 240 then decide (144 ≤ c1) && decide (c1 ≤ 191)
            else if b = 244 then decide (128 ≤ c1) && decide (c1 ≤ 143)
            else utf8Cont c1) then
          match rest1 with
          | c2 :: rest2 =>
            if utf8Cont c2 then
              match rest2 with
              | c3 :: r =>
                if utf8Cont c3 then b :: c1 :: c2 :: c3 :: utf8Lossy r
                else utf8Rep ++ utf8Lossy (c3 :: r)
              | [] => utf8Rep
            else utf8Rep ++ utf8Lossy (c2 :: rest2)
          | [] => utf8Rep
        else utf8Rep ++ utf8Lossy (c1 :: rest1)
      | [] => utf8Rep
    else utf8Rep ++ utf8Lossy rest
termination_by l => l.length
decreasing_by all_goals simp [List.length_cons] <;> omega

/-- Bytes before the first NUL, CStr::from_bytes_until_nul: the Err branch
(no NUL present) is absorbed by unwrap_or_default into the empty string. -/
def cstrBytes (l : List Nat) : List Nat :=
  if l.contains 0 then l.takeWhile (fun b => b != 0) else []

/-- CStr::from_bytes_until_nul(..).unwrap_or_default().to_str().unwrap_or("")
from the sub-option 202/203 handlers: bytes before the first NUL when a NUL
exists and the prefix is valid UTF-8, otherwise the empty string. -/
def cstrToStr (l : List Nat) : List Nat :=
  let c := cstrBytes l
  if isValidUtf8 c then c else []

/-- Result of the interpreted receive for v4: the error cases mirror the two
io::Error constructions in Dhcp4Client::recv. -/
inductive Dhcp4Error where
  | unexpectedOpcode
  | unexpectedMessageType
deriving DecidableEq

/-- Flat projection returned by Dhcp4Client::recv.  String-valued fields
carry UTF-8 byte lists. -/
structure Dhcp4Response where
  client_addr : Option Ipv4Addr
  server_addr : Option Ipv4Addr
  router_addrs : List Ipv4Addr
  subnet_mask : Option Ipv4Addr
  addr_time : Nat
  renewal_time : Nat
  rebind_time : Nat
  sip_server_addrs : List Ipv4Addr
  sip_domain_name : Option (List Nat)
  sip_main_number : Option (List Nat)
  sip_add_numbers : List (List Nat)
  static_routes : List Dhcp4Route
deriving DecidableEq

/-- The mutable locals of Dhcp4Client::recv while walking the option set. -/
structure Recv4State where
  subnet_mask : Option Ipv4Addr
  router_addrs : List Ipv4Addr
  addr_time : Nat
  renewal_time : Nat
  rebind_time : Nat
  sip_server_addrs : List Ipv4Addr
  sip_domain_name : Option (List Nat)
  sip_main_number : Option (List Nat)
  sip_add_numbers : List (List Nat)
  server_addr : Option Ipv4Addr
  static_routes : List Dhcp4Route
deriving DecidableEq

namespace Dhcp4Client

/-- Payload of the vendor block built in Dhcp4Client::request: enterprise
number 210 big-endian, then sub-option code 7, length 6, and the MAC. -/
def vendorOptData (local_if_mac : List Nat) : List Nat :=
  u32BeBytes 210 ++ [7, 6] ++ local_if_mac

/-- The parameter request list inserted by Dhcp4Client::request. -/
def requestParamList : List Dhcp4OptionCode :=
  [.subnetMask, .router, .unknownCode 120, .classlessStaticRoute, .unknownCode 125]

/-- Message construction of Dhcp4Client::request.  Header addressing varies
by sub-type exactly as the match in the source: Select passes the server
identifier as siaddr, InitReboot passes four zero addresses, Renew and
Rebind place the requested address in ciaddr.  The xid chosen by the
library constructor is irrelevant to interpretation and fixed at 0. -/
def request (local_if_mac : List Nat) (req_type : Dhcp4RequestType)
    (req_ip server_id : Ipv4Addr) : Dhcp4Message :=
  { opcode := .bootRequest
    htype := .eth
    xid := 0
    ciaddr :=
      match req_type with
      | .select => ipv4Zero
      | .initReboot => ipv4Zero
      | _ => req_ip
    yiaddr := ipv4Zero
    siaddr :=
      match req_type with
      | .select => server_id
      | .initReboot => ipv4Zero
      | _ => ipv4Zero
    giaddr := ipv4Zero
    chaddr := local_if_mac
    broadcastFlag := true
    opts :=
      [Dhcp4Option.messageType .request]
      ++ (if req_type = .select ∨ req_type = .initReboot
          then [Dhcp4Option.requestedIpAddress req_ip] else [])
      ++ (if req_type = .select
          then [Dhcp4Option.serverIdentifier server_id] else [])
      ++ [Dhcp4Option.parameterRequestList requestParamList,
          Dhcp4Option.maxMessageSize 1200,
          Dhcp4Option.clientIdentifier local_if_mac,
          Dhcp4Option.unknown 124 (vendorOptData local_if_mac)] }

/-- Destination selection at the end of Dhcp4Client::request: unicast to the
server only for Renew, otherwise limited broadcast (none). -/
def requestDest (req_type : Dhcp4RequestType) (server_id : Ipv4Addr) :
    Option Ipv4Addr :=
  if req_type = .renew then some server_id else none

/-- The option-120 loop of Dhcp4Client::recv: iterate i from 0 below the
declared count, stop as soon as the next 4-byte slice would overrun. -/
def sip120Go (data : List Nat) : Nat → Nat → List Ipv4Addr
  | 0, _ => []
  | count + 1, i =>
    if 1 + i * 4 + 4 > data.length then []
    else
      ipv4OfList (listSlice data (1 + i * 4) (1 + i * 4 + 4))
        :: sip120Go data count (i + 1)

/-- Option-120 payload interpretation: first byte is the address count,
then as many complete 4-byte addresses as both the count and the buffer
allow. -/
def sip120Addrs (data : List Nat) : List Ipv4Addr :=
  if data.length < 1 then [] else sip120Go data (data.getD 0 0) 0

/-- The label loop of vendor sub-option 204: each label is one length byte
followed by that many bytes; stop on a zero length byte, at the buffer end,
or when a slice would overrun. -/
def labels204 (sub : List Nat) : Nat → Nat → List (List Nat) → List (List Nat)
  | 0, _, acc => acc
  | fuel + 1, i, acc =>
    if i < sub.length then
      let ll := sub.getD i 0
      if ll = 0 then acc
      else if i + 1 ≥ sub.length then acc
      else if i + 1 + ll > sub.length then acc
      else labels204 sub fuel (i + 1 + ll) (acc ++ [listSlice sub (i + 1) (i + 1 + ll)])
    else acc

/-- Vendor sub-option 204: lossily decoded labels joined with a dot. -/
def domainOf204 (sub : List Nat) : List Nat :=
  List.intercalate [46] ((labels204 sub (sub.length + 1) 0 []).map utf8Lossy)

/-- Dispatch on one recognized NTT vendor sub-option.  201 is validated but
not exposed; 202 and 203 keep only nonempty decoded strings; 204 always
stores the joined domain. -/
def applyNtt (st : Recv4State) (sub_code : Nat) (sub : List Nat) : Recv4State :=
  match sub_code with
  | 201 => st
  | 202 =>
    let main := cstrToStr sub
    if main = [] then st else { st with sip_main_number := some main }
  | 203 =>
    let add := cstrToStr sub
    if add = [] then st else { st with sip_add_numbers := st.sip_add_numbers ++ [add] }
  | 204 => { st with sip_domain_name := some (domainOf204 sub) }
  | _ => st

/-- The sub-option while-loop of the option-125 handler: read code and
length bytes while two bytes remain, stop when the data slice would start
at or run past the end, otherwise apply the sub-option and advance. -/
def ntt125Go (data : List Nat) : Nat → Nat → Recv4State → Recv4State
  | 0, _, st => st
  | fuel + 1, pos, st =>
    if pos + 1 < data.length then
      let sub_code := data.getD pos 0
      let sub_len := data.getD (pos + 1) 0
      if pos + 2 ≥ data.length then st
      else if pos + 2 + sub_len > data.length then st
      else
        ntt125Go data fuel (pos + 2 + sub_len)
          (applyNtt st sub_code (listSlice data (pos + 2) (pos + 2 + sub_len)))
    else st

/-- Option-125 handling: require five bytes, interpret nothing unless the
big-endian enterprise number equals 210, then run the sub-option loop from
offset 5.  The declared region length at offset 4 is only consulted for a
log warning and has no effect on parsing. -/
def ntt125Apply (data : List Nat) (st : Recv4State) : Recv4State :=
  if data.length < 5 then st
  else if beU32 (listSlice data 0 4) ≠ 210 then st
  else ntt125Go data (data.length + 1) 5 st

/-- One iteration of the option match in Dhcp4Client::recv. -/
def recv4Step (expected : Dhcp4MessageType) (st : Recv4State) :
    Dhcp4Option → Except Dhcp4Error Recv4State
  | .subnetMask mask => .ok { st with subnet_mask := some mask }
  | .router rtaddr => .ok { st with router_addrs := st.router_addrs ++ rtaddr }
  | .addressLeaseTime t => .ok { st with addr_time := t }
  | .messageType t =>
    if t ≠ expected then .error .unexpectedMessageType else .ok st
  | .serverIdentifier srvid => .ok { st with server_addr := some srvid }
  | .renewal t1 => .ok { st with renewal_time := t1 }
  | .rebinding t2 => .ok { st with rebind_time := t2 }
  | .classlessStaticRoute csr =>
    .ok { st with static_routes :=
      st.static_routes ++ csr.map (fun r => ⟨r.1, r.2.1, r.2.2⟩) }
  | .unknown code data =>
    if code = 120 then
      .ok { st with sip_server_addrs := st.sip_server_addrs ++ sip120Addrs data }
    else if code = 125 then .ok (ntt125Apply data st)
    else .ok st
  | _ => .ok st

/-- Initial values of the locals in Dhcp4Client::recv. -/
def initRecv4 : Recv4State :=
  { subnet_mask := none
    router_addrs := []
    addr_time := 0
    renewal_time := 0
    rebind_time := 0
    sip_server_addrs := []
    sip_domain_name := none
    sip_main_number := none
    sip_add_numbers := []
    server_addr := none
    static_routes := [] }

/-- The option-walking loop of Dhcp4Client::recv. -/
def recv4Loop (expected : Dhcp4MessageType) :
    Recv4State → List Dhcp4Option → Except Dhcp4Error Recv4State
  | st, [] => .ok st
  | st, o :: rest =>
    match recv4Step expected st o with
    | .error e => .error e
    | .ok st1 => recv4Loop expected st1 rest

/-- Dhcp4Client::recv on a decoded message: reject a non-reply opcode, walk
the options, then project the locals into the response, with the client
address taken from yiaddr and absent when yiaddr is all zero. -/
def recv (expected_msg_type : Dhcp4MessageType) (msg : Dhcp4Message) :
    Except Dhcp4Error Dhcp4Response :=
  if msg.opcode ≠ .bootReply then .error .unexpectedOpcode
  else
    match recv4Loop expected_msg_type initRecv4 msg.opts with
    | .error e => .error e
    | .ok st =>
      .ok { client_addr := if msg.yiaddr = ipv4Zero then none else some msg.yiaddr
            server_addr := st.server_addr
            router_addrs := st.router_addrs
            subnet_mask := st.subnet_mask
            addr_time := st.addr_time
            renewal_time := st.renewal_time
            rebind_time := st.rebind_time
            sip_server_addrs := st.sip_server_addrs
            sip_domain_name := st.sip_domain_name
            sip_main_number := st.sip_main_number
            sip_add_numbers := st.sip_add_numbers
            static_routes := st.static_routes }

end Dhcp4Client

/-- DHCPv6 message types used by the PD exchange. -/
inductive Dhcp6MessageType where
  | solicit
  | advertise
  | request
  | reply
deriving DecidableEq

/-- DHCPv6 status codes carried in StatusCode options. -/
inductive Status6 where
  | success
  | unspecFail
  | noAddrsAvail
  | noBinding
  | notOnLink
  | useMulticast
  | noPrefixAvail
deriving DecidableEq

/-- DHCPv6 option codes the client matches on unknown options. -/
inductive Dhcp6OptionCode where
  | iapd
  | sipServerA
  | sntpServers
  | domainNameServers
  | domainSearchList
  | other (n : Nat)
deriving DecidableEq

/-- DHCPv6 options, mirroring the dhcproto variants the client touches;
the IA-PD and IA-Prefix containers carry nested option lists.  Domain
names are carried as the ASCII byte lists Name::to_ascii produces. -/
inductive Dhcp6Option where
  | clientId (id : List Nat)
  | serverId (id : List Nat)
  | statusCode (status : Status6) (message : List Nat)
  | domainNameServers (addrs : List Ipv6Addr)
  | domainSearchList (names : List (List Nat))
  | iapd (id : Nat) (t1 : Nat) (t2 : Nat) (opts : List Dhcp6Option)
  | iaPrefixVal (preferred_lifetime : Nat) (valid_lifetime : Nat)
      (prefix_ip : Ipv6Addr) (prefix_len : Nat) (opts : List Dhcp6Option)
  | vendorClassOpt (num : Nat) (data : List (List Nat))
  | elapsedTime (t : Nat)
  | oro (codes : List Dhcp6OptionCode)
  | unknown (code : Dhcp6OptionCode) (data : List Nat)

/-- Delegated-prefix value assembled by Dhcp6Client::recv. -/
structure PdPrefixData where
  prefix_addr : Ipv6Addr
  prefix_len : Nat
  preferred_lifetime : Nat
  valid_lifetime : Nat
  t1 : Nat
  t2 : Nat
deriving DecidableEq

/-- Flat projection returned by Dhcp6Client::recv. -/
structure Dhcp6Response where
  client_id : List Nat
  server_id : List Nat
  pd : Option PdPrefixData
  nameserver_addrs : List Ipv6Addr
  domain_search_list : List (List Nat)
  sip_server_addrs : List Ipv6Addr
  sntp_server_addrs : List Ipv6Addr
deriving DecidableEq

/-- Decoded DHCPv6 message: type, transaction id, option list. -/
structure Dhcp6Message where
  msg_type : Dhcp6MessageType
  xid : Nat
  opts : List Dhcp6Option

/-- Errors of Dhcp6Client::recv, one per io::Error construction: wrong
message type, client DUID mismatch, and the generic DHCP error raised for
a non-success status code (which carries no further data). -/
inductive Dhcp6Error where
  | unexpectedMessageType
  | duidMismatch
  | dhcpError
deriving DecidableEq

/-- Outcome of a Rust computation that can also abort: ok and err mirror
the Result cases, fault models an unwrap panic. -/
inductive RecvOutcome (ε : Type) (α : Type) where
  | ok (a : α)
  | err (e : ε)
  | fault
deriving DecidableEq

/-- True exactly on the err outcome. -/
def RecvOutcome.isErr {ε α : Type} : RecvOutcome ε α → Bool
  | .err _ => true
  | _ => false

/-- The mutable locals of Dhcp6Client::recv while walking the option set. -/
structure Recv6State where
  domain_search_list : List (List Nat)
  nameserver_addrs : List Ipv6Addr
  sntp_server_addrs : List Ipv6Addr
  sip_server_addrs : List Ipv6Addr
  client_id : Option (List Nat)
  server_id : Option (List Nat)
  t1 : Nat
  t2 : Nat
  valid_lifetime : Nat
  preferred_lifetime : Nat
  prefix_ip : Option Ipv6Addr
  prefix_len : Option Nat
deriving DecidableEq

/-- The consecutive-16-byte-group loop shared by the SipServerA and
SntpServers handlers: collect complete addresses, stop at the first
incomplete group. -/
def addrs16Go (data : List Nat) : Nat → Nat → List Ipv6Addr
  | 0, _ => []
  | fuel + 1, i =>
    if i * 16 + 16 > data.length then []
    else ipv6OfList (listSlice data (i * 16) (i * 16 + 16)) :: addrs16Go data fuel (i + 1)

/-- All complete 16-byte addresses at the front of a payload. -/
def addrs16 (data : List Nat) : List Ipv6Addr := addrs16Go data (data.length + 1) 0

namespace Dhcp6Client

/-- Dhcp6Client::local_duid: DUID type 3, hardware type 1, then the MAC. -/
def local_duid (local_if_mac : List Nat) : List Nat :=
  [0, 3, 0, 1] ++ local_if_mac

/-- The inner loop of the IAPD branch in Dhcp6Client::recv: every IA-Prefix
option in the container overwrites the four prefix locals. -/
def iapdFold (st : Recv6State) (inner : List Dhcp6Option) : Recv6State :=
  inner.foldl
    (fun s o =>
      match o with
      | .iaPrefixVal pl vl ip plen _ =>
        { s with valid_lifetime := vl
                 preferred_lifetime := pl
                 prefix_ip := some ip
                 prefix_len := some plen }
      | _ => s)
    st

/-- One iteration of the option match in Dhcp6Client::recv. -/
def recvStep (local_if_mac : List Nat) (st : Recv6State) :
    Dhcp6Option → Except Dhcp6Error Recv6State
  | .clientId id =>
    if id ≠ local_duid local_if_mac then .error .duidMismatch
    else .ok { st with client_id := some id }
  | .serverId id => .ok { st with server_id := some id }
  | .statusCode s _ =>
    match s with
    | .success => .ok st
    | _ => .error .dhcpError
  | .domainNameServers srv =>
    .ok { st with nameserver_addrs := st.nameserver_addrs ++ srv }
  | .domainSearchList l =>
    .ok { st with domain_search_list := st.domain_search_list ++ l }
  | .iapd _ t1 t2 inner => .ok (iapdFold { st with t1 := t1, t2 := t2 } inner)
  | .unknown code data =>
    match code with
    | .sipServerA =>
      .ok { st with sip_server_addrs := st.sip_server_addrs ++ addrs16 data }
    | .sntpServers =>
      .ok { st with sntp_server_addrs := st.sntp_server_addrs ++ addrs16 data }
    | _ => .ok st
  | _ => .ok st

/-- Initial values of the locals in Dhcp6Client::recv. -/
def initRecv6 : Recv6State :=
  { domain_search_list := []
    nameserver_addrs := []
    sntp_server_addrs := []
    sip_server_addrs := []
    client_id := none
    server_id := none
    t1 := 0
    t2 := 0
    valid_lifetime := 0
    preferred_lifetime := 0
    prefix_ip := none
    prefix_len := none }

/-- The option-walking loop of Dhcp6Client::recv. -/
def recvLoop (local_if_mac : List Nat) :
    Recv6State → List Dhcp6Option → Except Dhcp6Error Recv6State
  | st, [] => .ok st
  | st, o :: rest =>
    match recvStep local_if_mac st o with
    | .error e => .error e
    | .ok st1 => recvLoop local_if_mac st1 rest

/-- Assembly of the response after the loop in Dhcp6Client::recv.  The pd
value is present exactly when a prefix was recorded; the final unwrap calls
on the client and server identifier locals abort when either option never
appeared, modelled by the fault outcome. -/
def finalize (st : Recv6State) : RecvOutcome Dhcp6Error Dhcp6Response :=
  let pd : Option PdPrefixData :=
    match st.prefix_ip, st.prefix_len with
    | some ip, some plen =>
      some { prefix_addr := ip
             prefix_len := plen
             preferred_lifetime := st.preferred_lifetime
             valid_lifetime := st.valid_lifetime
             t1 := st.t1
             t2 := st.t2 }
    | _, _ => none
  match st.client_id, st.server_id with
  | some cid, some sid =>
    .ok { client_id := cid
          server_id := sid
          pd := pd
          nameserver_addrs := st.nameserver_addrs
          domain_search_list := st.domain_search_list
          sip_server_addrs := st.sip_server_addrs
          sntp_server_addrs := st.sntp_server_addrs }
  | _, _ => .fault

/-- Dhcp6Client::recv on a decoded message: reject an unexpected message
type, walk the options, then assemble the response. -/
def recv (local_if_mac : List Nat) (expected_msg_type : Dhcp6MessageType)
    (msg : Dhcp6Message) : RecvOutcome Dhcp6Error Dhcp6Response :=
  if msg.msg_type ≠ expected_msg_type then .err .unexpectedMessageType
  else
    match recvLoop local_if_mac initRecv6 msg.opts with
    | .error e => .err e
    | .ok st => finalize st

end Dhcp6Client

/-- IA-Prefix data (preferred lifetime, valid lifetime, address, length)
of the IA-Prefix options in a container body, in container order. -/
def iaPrefixEntriesIn (inner : List Dhcp6Option) : List (Nat × Nat × Ipv6Addr × Nat) :=
  inner.filterMap (fun oi =>
    match oi with
    | .iaPrefixVal pl vl ip plen _ => some (pl, vl, ip, plen)
    | _ => none)

/-- IA-Prefix data carried by one option when it is an IA-PD container. -/
def iaPrefixEntriesOf : Dhcp6Option → List (Nat × Nat × Ipv6Addr × Nat)
  | .iapd _ _ _ inner => iaPrefixEntriesIn inner
  | _ => []

/-- All IA-Prefix data found inside IA-PD containers, in option order. -/
def iaPrefixEntries (opts : List Dhcp6Option) : List (Nat × Nat × Ipv6Addr × Nat) :=
  (opts.map iaPrefixEntriesOf).flatten

/-- T1/T2 carried by one option when it is an IA-PD container. -/
def tEntriesOf : Dhcp6Option → List (Nat × Nat)
  | .iapd _ a b _ => [(a, b)]
  | _ => []

/-- T1/T2 pairs of all IA-PD containers, in option order. -/
def tEntries (opts : List Dhcp6Option) : List (Nat × Nat) :=
  (opts.map tEntriesOf).flatten

/-- T1/T2 of the last IA-PD container, zero when no container appears. -/
def lastT1T2 (opts : List Dhcp6Option) : Nat × Nat :=
  (tEntries opts).getLast?.getD (0, 0)

/-- Specification-level delegated-prefix value of an option list: absent
when no IA-PD container holds an IA-Prefix option, otherwise the last
IA-Prefix found in option order, paired with the last container's T1/T2. -/
def pdOfOptions (opts : List Dhcp6Option) : Option PdPrefixData :=
  match (iaPrefixEntries opts).getLast? with
  | none => none
  | some (pl, vl, ip, plen) =>
    some { prefix_addr := ip
           prefix_len := plen
           preferred_lifetime := pl
           valid_lifetime := vl
           t1 := (lastT1T2 opts).1
           t2 := (lastT1T2 opts).2 }

/-- Synthetic Offer of the end-to-end scenario with the sub-option 202
payload NUL-terminated: option 125 carries enterprise 210 big-endian, the
declared region length, then sub-option 202 of length 6 holding the ASCII
bytes of 12345 followed by a NUL. -/
def offerMsg202Nul : Dhcp4Message :=
  { opcode := .bootReply, htype := .eth, xid := 0,
    ciaddr := ipv4Zero, yiaddr := ⟨192, 0, 2, 10⟩, siaddr := ipv4Zero,
    giaddr := ipv4Zero, chaddr := [170, 187, 204, 221, 238, 255],
    broadcastFlag := false,
    opts := [ .messageType .offer,
              .serverIdentifier ⟨192, 0, 2, 1⟩,
              .subnetMask ⟨255, 255, 255, 0⟩,
              .unknown 125 [0, 0, 0, 210, 8, 202, 6, 49, 50, 51, 52, 53, 0] ] }

/-- The same synthetic Offer with the sub-option 202 payload carrying the
five ASCII bytes of 12345 and no trailing NUL. -/
def offerMsg202NoNul : Dhcp4Message :=
  { offerMsg202Nul with
    opts := [ .messageType .offer,
              .serverIdentifier ⟨192, 0, 2, 1⟩,
              .subnetMask ⟨255, 255, 255, 0⟩,
              .unknown 125 [0, 0, 0, 210, 7, 202, 5, 49, 50, 51, 52, 53] ] }

/-- Projection of the four prefix-tracking locals of the v6 receive loop. -/
def pdQuad (st : Recv6State) : Nat × Nat × Option Ipv6Addr × Option Nat :=
  (st.preferred_lifetime, st.valid_lifetime, st.prefix_ip, st.prefix_len)

/-- Projection of the T1/T2 locals of the v6 receive loop. -/
def tPair (st : Recv6State) : Nat × Nat := (st.t1, st.t2)

/-- The prefix-tracking locals after one IA-Prefix entry overwrites them. -/
def quadOfEntry (e : Nat × Nat × Ipv6Addr × Nat) :
    Nat × Nat × Option Ipv6Addr × Option Nat :=
  (e.1, e.2.1, some e.2.2.1, some e.2.2.2)

/-- Reply carrying a matching ClientId, a ServerId and one IA-PD container
with two distinct IA-Prefix options. -/
def msgC2 : Dhcp6Message :=
  { msg_type := .reply, xid := 0,
    opts := [ .clientId (Dhcp6Client.local_duid [2, 2, 2, 2, 2, 2]),
              .serverId [1],
              .iapd 1 1000 2000
                [ .iaPrefixVal 300 600
                    ⟨[32, 1, 13, 184, 0, 0, 0, 0, 0, 0, 0, 0, 0, 0, 0, 0]⟩ 56 [],
                  .iaPrefixVal 301 601
                    ⟨[32, 1, 13, 185, 0, 0, 0, 0, 0, 0, 0, 0, 0, 0, 0, 0]⟩ 60 [] ] ] }

/-- Delegated-prefix value of the first IA-Prefix option of msgC2. -/
def pdFirstC2 : PdPrefixData :=
  { prefix_addr := ⟨[32, 1, 13, 184, 0, 0, 0, 0, 0, 0, 0, 0, 0, 0, 0, 0]⟩
    prefix_len := 56
    preferred_lifetime := 300
    valid_lifetime := 600
    t1 := 1000
    t2 := 2000 }

/-- Delegated-prefix value of the second IA-Prefix option of msgC2. -/
def pdSecondC2 : PdPrefixData :=
  { prefix_addr := ⟨[32, 1, 13, 185, 0, 0, 0, 0, 0, 0, 0, 0, 0, 0, 0, 0]⟩
    prefix_len := 60
    preferred_lifetime := 301
    valid_lifetime := 601
    t1 := 1000
    t2 := 2000 }

/-- Response computed by recv on msgC2. -/
def respC2 : Dhcp6Response :=
  { client_id := Dhcp6Client.local_duid [2, 2, 2, 2, 2, 2]
    server_id := [1]
    pd := some pdSecondC2
    nameserver_addrs := []
    domain_search_list := []
    sip_server_addrs := []
    sntp_server_addrs := [] }

/-- True exactly on the ok case of an Except value. -/
def exceptIsOk {ε α : Type} : Except ε α → Bool
  | .ok _ => true
  | .error _ => false

/-- True exactly on a MessageType option. -/
def isMsgTypeOpt : Dhcp4Option → Bool
  | .messageType _ => true
  | _ => false

/-- An option on which every step fails makes the whole v6 option loop
fail, whatever came before it. -/
theorem recvLoop_error_of_mem (local_if_mac : List Nat) (o : Dhcp6Option)
    (h : ∀ st, ∃ e, Dhcp6Client.recvStep local_if_mac st o = .error e) :
    ∀ (opts : List Dhcp6Option) (st : Recv6State), o ∈ opts →
      ∃ e, Dhcp6Client.recvLoop local_if_mac st opts = .error e := by
  intro opts
  induction opts with
  | nil => intro st hmem; cases hmem
  | cons a rest ih =>
    intro st hmem
    rcases List.mem_cons.mp hmem with heq | htail
    · subst heq
      obtain ⟨e, he⟩ := h st
      exact ⟨e, by simp [Dhcp6Client.recvLoop, he]⟩
    · cases hstep : Dhcp6Client.recvStep local_if_mac st a with
      | error e => exact ⟨e, by simp [Dhcp6Client.recvLoop, hstep]⟩
      | ok st1 =>
        obtain ⟨e, he⟩ := ih st1 htail
        exact ⟨e, by simp [Dhcp6Client.recvLoop, hstep, he]⟩

/-- A ClientId option with a DUID other than the local one always steps to
the duidMismatch error. -/
theorem recvStep_clientId_error (local_if_mac : List Nat) (id : List Nat)
    (h : id ≠ Dhcp6Client.local_duid local_if_mac) (st : Recv6State) :
    Dhcp6Client.recvStep local_if_mac st (.clientId id) = .error .duidMismatch := by
  simp [Dhcp6Client.recvStep, h]

/-- A non-success StatusCode option always steps to the dhcpError error. -/
theorem recvStep_statusCode_error (local_if_mac : List Nat) (s : Status6)
    (m0 : List Nat) (h : s ≠ Status6.success) (st : Recv6State) :
    Dhcp6Client.recvStep local_if_mac st (.statusCode s m0) = .error .dhcpError := by
  cases s <;> simp_all [Dhcp6Client.recvStep]

/-- C1: the claim that the v4 and v6 receive operations never abort with
an unrecoverable fault is violated by the v6 code: a structurally valid
Reply of the expected message type that carries no options at all reaches
the unwrap calls on the absent client and server identifier locals, which
panic; in the embedding the receive evaluates to the fault outcome. -/
theorem c1_v6_recv_faults_on_missing_ids :
    Dhcp6Client.recv [170, 187, 204, 221, 238, 255] .reply
      { msg_type := .reply, xid := 0, opts := [] } = .fault := rfl

/-- C7: a v6 message containing a ClientId option whose bytes differ from
the local DUID is always rejected by recv with a typed error (all
Dhcp6Error cases are protocol-mismatch failures), regardless of every
other option: the mismatch aborts the whole decode. -/
theorem c7_duid_mismatch_aborts (local_if_mac : List Nat)
    (expected : Dhcp6MessageType) (msg : Dhcp6Message)
    (h : ∃ id, Dhcp6Option.clientId id ∈ msg.opts ∧
      id ≠ Dhcp6Client.local_duid local_if_mac) :
    (Dhcp6Client.recv local_if_mac expected msg).isErr = true := by
  obtain ⟨id, hmem, hne⟩ := h
  by_cases ht : msg.msg_type = expected
  · obtain ⟨e, he⟩ := recvLoop_error_of_mem local_if_mac (.clientId id)
      (fun st => ⟨.duidMismatch, recvStep_clientId_error local_if_mac id hne st⟩)
      msg.opts Dhcp6Client.initRecv6 hmem
    simp [Dhcp6Client.recv, ht, he, RecvOutcome.isErr]
  · simp [Dhcp6Client.recv, ht, RecvOutcome.isErr]

/-- Witness for C7: a Reply of the expected type whose ClientId is not the
local DUID is rejected. -/
theorem c7_witness :
    (Dhcp6Client.recv [170, 187, 204, 221, 238, 255] .reply
      { msg_type := .reply, xid := 0,
        opts := [Dhcp6Option.clientId [9, 9]] }).isErr = true :=
  c7_duid_mismatch_aborts [170, 187, 204, 221, 238, 255] .reply _
    ⟨[9, 9], by simp, by decide⟩

/-- C3 counterexample: two v6 messages that differ only in the non-success
status value carried by their StatusCode option produce the identical
error value, so the error returned by recv does not carry the status found
in the option, contrary to the claim. -/
theorem c3_counterexample :
    Dhcp6Client.recv [1, 2, 3, 4, 5, 6] .reply
      { msg_type := .reply, xid := 0,
        opts := [Dhcp6Option.statusCode .noAddrsAvail []] } = .err .dhcpError ∧
    Dhcp6Client.recv [1, 2, 3, 4, 5, 6] .reply
      { msg_type := .reply, xid := 0,
        opts := [Dhcp6Option.statusCode .noBinding []] } = .err .dhcpError ∧
    Status6.noAddrsAvail ≠ Status6.noBinding :=
  ⟨rfl, rfl, by decide⟩

/-- C3 (amended): a v6 message containing a StatusCode option whose status
is not Success always makes recv fail for the whole message with a typed
error; the error is the fixed DHCP-error value and does not carry the
status found in the option. -/
theorem c3_nonsuccess_status_fails (local_if_mac : List Nat)
    (expected : Dhcp6MessageType) (msg : Dhcp6Message)
    (h : ∃ s m0, Dhcp6Option.statusCode s m0 ∈ msg.opts ∧ s ≠ Status6.success) :
    (Dhcp6Client.recv local_if_mac expected msg).isErr = true := by
  obtain ⟨s, m0, hmem, hne⟩ := h
  by_cases ht : msg.msg_type = expected
  · obtain ⟨e, he⟩ := recvLoop_error_of_mem local_if_mac (.statusCode s m0)
      (fun st => ⟨.dhcpError, recvStep_statusCode_error local_if_mac s m0 hne st⟩)
      msg.opts Dhcp6Client.initRecv6 hmem
    simp [Dhcp6Client.recv, ht, he, RecvOutcome.isErr]
  · simp [Dhcp6Client.recv, ht, RecvOutcome.isErr]

/-- Witness for C3 (amended) on a concrete Advertise with NoPrefixAvail. -/
theorem c3_witness :
    (Dhcp6Client.recv [1, 2, 3, 4, 5, 6] .advertise
      { msg_type := .advertise, xid := 0,
        opts := [Dhcp6Option.statusCode .noPrefixAvail [78]] }).isErr = true :=
  c3_nonsuccess_status_fails [1, 2, 3, 4, 5, 6] .advertise _
    ⟨.noPrefixAvail, [78], by simp, by decide⟩

/-- C9: an option-125 payload whose leading big-endian 32-bit word is not
the enterprise number 210 leaves the receive state completely unchanged:
no sub-option is parsed and no vendor field is populated by the block. -/
theorem c9_enterprise_mismatch_ignored (expected : Dhcp4MessageType)
    (st : Recv4State) (data : List Nat)
    (h4 : 4 ≤ data.length) (hent : beU32 (listSlice data 0 4) ≠ 210) :
    Dhcp4Client.recv4Step expected st (.unknown 125 data) = .ok st := by
  simp only [Dhcp4Client.recv4Step, Dhcp4Client.ntt125Apply]
  by_cases h5 : data.length < 5
  · simp [h5]
  · simp [h5, hent]

/-- Witness for C9 with enterprise number 99. -/
theorem c9_witness :
    Dhcp4Client.recv4Step .ack Dhcp4Client.initRecv4
      (.unknown 125 [0, 0, 0, 99, 0]) = .ok Dhcp4Client.initRecv4 :=
  c9_enterprise_mismatch_ignored .ack Dhcp4Client.initRecv4 [0, 0, 0, 99, 0]
    (by decide) (by decide)

/-- Every option other than a MessageType option steps without error. -/
theorem recv4Step_ok_of_not_msgType (expected : Dhcp4MessageType)
    (st : Recv4State) (o : Dhcp4Option) (h : isMsgTypeOpt o = false) :
    ∃ st1, Dhcp4Client.recv4Step expected st o = .ok st1 := by
  cases o with
  | messageType t => simp [isMsgTypeOpt] at h
  | unknown code data =>
    by_cases h120 : code = 120
    · subst h120; exact ⟨_, rfl⟩
    · by_cases h125 : code = 125
      · subst h125; exact ⟨_, rfl⟩
      · refine ⟨st, ?_⟩
        simp [Dhcp4Client.recv4Step, h120, h125]
  | subnetMask mask => exact ⟨_, rfl⟩
  | router addrs => exact ⟨_, rfl⟩
  | addressLeaseTime t => exact ⟨_, rfl⟩
  | serverIdentifier addr => exact ⟨_, rfl⟩
  | renewal t1 => exact ⟨_, rfl⟩
  | rebinding t2 => exact ⟨_, rfl⟩
  | classlessStaticRoute routes => exact ⟨_, rfl⟩
  | requestedIpAddress addr => exact ⟨_, rfl⟩
  | parameterRequestList codes => exact ⟨_, rfl⟩
  | maxMessageSize n => exact ⟨_, rfl⟩
  | clientIdentifier id => exact ⟨_, rfl⟩

/-- A v4 option list without any MessageType option folds without error. -/
theorem recv4Loop_ok_of_no_msgType (expected : Dhcp4MessageType) :
    ∀ (opts : List Dhcp4Option) (st : Recv4State),
      (∀ o ∈ opts, isMsgTypeOpt o = false) →
      ∃ st1, Dhcp4Client.recv4Loop expected st opts = .ok st1 := by
  intro opts
  induction opts with
  | nil => intro st _; exact ⟨st, rfl⟩
  | cons a rest ih =>
    intro st hall
    obtain ⟨st1, hst1⟩ :=
      recv4Step_ok_of_not_msgType expected st a (hall a (List.mem_cons_self a rest))
    obtain ⟨st2, hst2⟩ := ih st1 (fun o ho => hall o (List.mem_cons_of_mem a ho))
    exact ⟨st2, by simp [Dhcp4Client.recv4Loop, hst1, hst2]⟩

/-- C10: a structurally decodable v4 message whose opcode is BootReply but
which contains no MessageType option at all is accepted by recv for every
expected message type: the expected-type equality check only runs when a
MessageType option is present. -/
theorem c10_no_message_type_accepted (expected : Dhcp4MessageType)
    (msg : Dhcp4Message) (hop : msg.opcode = .bootReply)
    (hno : ∀ o ∈ msg.opts, isMsgTypeOpt o = false) :
    exceptIsOk (Dhcp4Client.recv expected msg) = true := by
  obtain ⟨st1, h1⟩ :=
    recv4Loop_ok_of_no_msgType expected msg.opts Dhcp4Client.initRecv4 hno
  simp [Dhcp4Client.recv, hop, h1, exceptIsOk]

/-- Witness for C10: a BootReply carrying only a subnet mask is accepted
when an Ack is expected. -/
theorem c10_witness :
    exceptIsOk (Dhcp4Client.recv .ack
      { opcode := .bootReply, htype := .eth, xid := 0, ciaddr := ipv4Zero,
        yiaddr := ⟨192, 0, 2, 10⟩, siaddr := ipv4Zero, giaddr := ipv4Zero,
        chaddr := [170, 187, 204, 221, 238, 255], broadcastFlag := false,
        opts := [Dhcp4Option.subnetMask ⟨255, 255, 255, 0⟩] }) = true :=
  c10_no_message_type_accepted .ack _ rfl (by decide)

/-- The option-120 loop collects exactly the addresses allowed by both the
remaining count and the number of complete 4-byte groups after position i. -/
theorem sip120Go_spec (data : List Nat) :
    ∀ (count i : Nat),
      Dhcp4Client.sip120Go data count i =
        (List.range (min count ((data.length - 1) / 4 - i))).map
          (fun j => ipv4OfList (listSlice data (1 + (i + j) * 4) (1 + (i + j) * 4 + 4))) := by
  intro count
  induction count with
  | zero => intro i; simp [Dhcp4Client.sip120Go]
  | succ k ih =>
    intro i
    by_cases h : 1 + i * 4 + 4 > data.length
    · have hD : (data.length - 1) / 4 - i = 0 := by omega
      simp [Dhcp4Client.sip120Go, h, hD]
    · have hD : (data.length - 1) / 4 - i = ((data.length - 1) / 4 - (i + 1)) + 1 := by
        omega
      have hmin : min (k + 1) (((data.length - 1) / 4 - (i + 1)) + 1) =
          min k ((data.length - 1) / 4 - (i + 1)) + 1 := by omega
      have harith : ∀ j : Nat, i + (j + 1) = (i + 1) + j := by omega
      have hfun :
          (fun j => ipv4OfList
            (listSlice data (1 + (i + (j + 1)) * 4) (1 + (i + (j + 1)) * 4 + 4)))
          = (fun j => ipv4OfList
            (listSlice data (1 + ((i + 1) + j) * 4) (1 + ((i + 1) + j) * 4 + 4))) := by
        funext j
        rw [harith j]
      rw [Dhcp4Client.sip120Go, if_neg h, ih (i + 1), hD, hmin,
        List.range_succ_eq_map]
      simp only [List.map_cons, List.map_map, Function.comp_def,
        Nat.succ_eq_add_one, Nat.add_zero]
      rw [hfun]

/-- C8: an option-120 payload declaring more addresses than the buffer
holds yields exactly the complete addresses present and no error: with a
count byte equal to n and fewer than n complete 4-byte groups after it,
the parsed list is precisely the (data.length - 1) / 4 complete addresses
in buffer order. -/
theorem c8_sip120_truncated (data : List Nat) (n : Nat)
    (h1 : 1 ≤ data.length) (h2 : data.getD 0 0 = n)
    (h3 : (data.length - 1) / 4 < n) :
    Dhcp4Client.sip120Addrs data =
      (List.range ((data.length - 1) / 4)).map
        (fun j => ipv4OfList (listSlice data (1 + j * 4) (1 + j * 4 + 4))) := by
  have hlt : ¬ data.length < 1 := by omega
  rw [Dhcp4Client.sip120Addrs, if_neg hlt, h2, sip120Go_spec data n 0]
  have hmin : min n ((data.length - 1) / 4 - 0) = (data.length - 1) / 4 := by omega
  rw [hmin]
  simp

/-- Witness for C8: count 3 with eight trailing bytes yields exactly the
two complete addresses. -/
theorem c8_witness :
    Dhcp4Client.sip120Addrs [3, 10, 0, 0, 1, 10, 0, 0, 2] =
      (List.range ((([3, 10, 0, 0, 1, 10, 0, 0, 2] : List Nat).length - 1) / 4)).map
        (fun j => ipv4OfList
          (listSlice [3, 10, 0, 0, 1, 10, 0, 0, 2] (1 + j * 4) (1 + j * 4 + 4))) ∧
    Dhcp4Client.sip120Addrs [3, 10, 0, 0, 1, 10, 0, 0, 2] =
      [⟨10, 0, 0, 1⟩, ⟨10, 0, 0, 2⟩] :=
  ⟨c8_sip120_truncated [3, 10, 0, 0, 1, 10, 0, 0, 2] 3 (by decide) (by decide)
    (by decide), by decide⟩

/-- C4 counterexample: on the synthetic Offer whose sub-option 202 data is
the full-length ASCII string 12345 without a trailing NUL, recv leaves
sip_main_number absent, because CStr::from_bytes_until_nul fails without a
NUL and unwrap_or_default yields the empty string; the claim promised the
number for this input as well. -/
theorem c4_counterexample :
    Dhcp4Client.recv .offer offerMsg202NoNul =
      .ok { client_addr := some ⟨192, 0, 2, 10⟩
            server_addr := some ⟨192, 0, 2, 1⟩
            router_addrs := []
            subnet_mask := some ⟨255, 255, 255, 0⟩
            addr_time := 0
            renewal_time := 0
            rebind_time := 0
            sip_server_addrs := []
            sip_domain_name := none
            sip_main_number := none
            sip_add_numbers := []
            static_routes := [] } ∧
    (none : Option (List Nat)) ≠ some [49, 50, 51, 52, 53] :=
  ⟨rfl, by decide⟩

/-- C4 (amended): on the synthetic Offer whose sub-option 202 data is
NUL-terminated, recv returns client address 192.0.2.10, server address
192.0.2.1 and the main number 12345 (ASCII bytes 49..53); without the NUL
the number is absent. -/
theorem c4_offer_end_to_end :
    Dhcp4Client.recv .offer offerMsg202Nul =
      .ok { client_addr := some ⟨192, 0, 2, 10⟩
            server_addr := some ⟨192, 0, 2, 1⟩
            router_addrs := []
            subnet_mask := some ⟨255, 255, 255, 0⟩
            addr_time := 0
            renewal_time := 0
            rebind_time := 0
            sip_server_addrs := []
            sip_domain_name := none
            sip_main_number := some [49, 50, 51, 52, 53]
            sip_add_numbers := []
            static_routes := [] } := rfl

/-- C5 counterexample: a Select request built with server identifier
192.0.2.1 places that identifier in the siaddr header field, so the four
header address fields are not all zero as the claim states. -/
theorem c5_counterexample :
    (Dhcp4Client.request [170, 187, 204, 221, 238, 255] .select
      ⟨192, 0, 2, 10⟩ ⟨192, 0, 2, 1⟩).siaddr ≠ ipv4Zero := by
  decide

/-- C5 (amended): for every Select request the client, your and gateway
header fields are zero, the server header field carries the given server
identifier, and the option set contains both RequestedIpAddress equal to
the requested address and ServerIdentifier equal to the identifier. -/
theorem c5_select_request (local_if_mac : List Nat)
    (req_ip server_id : Ipv4Addr) :
    (Dhcp4Client.request local_if_mac .select req_ip server_id).ciaddr = ipv4Zero ∧
    (Dhcp4Client.request local_if_mac .select req_ip server_id).yiaddr = ipv4Zero ∧
    (Dhcp4Client.request local_if_mac .select req_ip server_id).giaddr = ipv4Zero ∧
    (Dhcp4Client.request local_if_mac .select req_ip server_id).siaddr = server_id ∧
    Dhcp4Option.requestedIpAddress req_ip ∈
      (Dhcp4Client.request local_if_mac .select req_ip server_id).opts ∧
    Dhcp4Option.serverIdentifier server_id ∈
      (Dhcp4Client.request local_if_mac .select req_ip server_id).opts := by
  refine ⟨rfl, rfl, rfl, rfl, ?_, ?_⟩ <;> simp [Dhcp4Client.request]

/-- C6 counterexample: the built Request carries the enterprise vendor
block under option code 124, and its option set contains no option with
code 125 at all, contrary to the claim that the block is carried as
option 125. -/
theorem c6_counterexample :
    Dhcp4Option.unknown 124 (Dhcp4Client.vendorOptData [170, 187, 204, 221, 238, 255]) ∈
      (Dhcp4Client.request [170, 187, 204, 221, 238, 255] .select
        ⟨192, 0, 2, 10⟩ ⟨192, 0, 2, 1⟩).opts ∧
    ((Dhcp4Client.request [170, 187, 204, 221, 238, 255] .select
        ⟨192, 0, 2, 10⟩ ⟨192, 0, 2, 1⟩).opts.all
      (fun o => match o with
        | Dhcp4Option.unknown 125 _ => false
        | _ => true)) = true := by
  constructor <;> decide

/-- C6 (amended): every Request variant carries the extended parameter
request list [SubnetMask, Router, 120, ClasslessStaticRoute, 125],
MaxMessageSize 1200, a client identifier equal to the local MAC, and the
enterprise vendor block (enterprise 210 as four big-endian bytes, then
sub-option code 7, length 6, and the 6-byte MAC) under option code 124
rather than 125. -/
theorem c6_request_common_options (local_if_mac : List Nat)
    (req_type : Dhcp4RequestType) (req_ip server_id : Ipv4Addr) :
    Dhcp4Option.parameterRequestList
        [.subnetMask, .router, .unknownCode 120, .classlessStaticRoute, .unknownCode 125] ∈
      (Dhcp4Client.request local_if_mac req_type req_ip server_id).opts ∧
    Dhcp4Option.maxMessageSize 1200 ∈
      (Dhcp4Client.request local_if_mac req_type req_ip server_id).opts ∧
    Dhcp4Option.clientIdentifier local_if_mac ∈
      (Dhcp4Client.request local_if_mac req_type req_ip server_id).opts ∧
    Dhcp4Option.unknown 124 (u32BeBytes 210 ++ [7, 6] ++ local_if_mac) ∈
      (Dhcp4Client.request local_if_mac req_type req_ip server_id).opts := by
  cases req_type <;>
    refine ⟨?_, ?_, ?_, ?_⟩ <;>
    simp [Dhcp4Client.request, Dhcp4Client.requestParamList, Dhcp4Client.vendorOptData]

/-- Every nonempty cons list has a last element. -/
theorem getLast?_cons_isSome {α : Type} (b : α) (t : List α) :
    ∃ x, (b :: t).getLast? = some x := by
  induction t generalizing b with
  | nil => exact ⟨b, rfl⟩
  | cons c t' ih =>
    obtain ⟨x, hx⟩ := ih c
    exact ⟨x, by rw [List.getLast?_cons_cons, hx]⟩

/-- A fold that overwrites its accumulator with each element computes the
image of the last element, or keeps the start value on an empty list. -/
theorem foldl_overwrite_getLast {α β : Type} (f : α → β) :
    ∀ (l : List α) (init : β),
      l.foldl (fun _ a => f a) init = (l.getLast?.map f).getD init := by
  intro l
  induction l with
  | nil => intro init; rfl
  | cons a t ih =>
    intro init
    cases t with
    | nil => rfl
    | cons b t' =>
      obtain ⟨x, hx⟩ := getLast?_cons_isSome b t'
      rw [List.foldl_cons, ih (f a), List.getLast?_cons_cons, hx]
      rfl

/-- Option-order decomposition of the IA-Prefix entry list. -/
theorem iaPrefixEntries_cons (o : Dhcp6Option) (rest : List Dhcp6Option) :
    iaPrefixEntries (o :: rest) = iaPrefixEntriesOf o ++ iaPrefixEntries rest := by
  simp [iaPrefixEntries]

/-- Option-order decomposition of the container T1/T2 list. -/
theorem tEntries_cons (o : Dhcp6Option) (rest : List Dhcp6Option) :
    tEntries (o :: rest) = tEntriesOf o ++ tEntries rest := by
  simp [tEntries]

/-- The container body loop overwrites the prefix locals once per
IA-Prefix entry and leaves the T1/T2 and identifier locals unchanged. -/
theorem iapdFold_spec (inner : List Dhcp6Option) :
    ∀ st : Recv6State,
      pdQuad (Dhcp6Client.iapdFold st inner) =
        (iaPrefixEntriesIn inner).foldl (fun _ e => quadOfEntry e) (pdQuad st) ∧
      tPair (Dhcp6Client.iapdFold st inner) = tPair st := by
  induction inner with
  | nil => intro st; exact ⟨rfl, rfl⟩
  | cons o rest ih =>
    intro st
    cases o <;>
      simp only [Dhcp6Client.iapdFold, List.foldl_cons, iaPrefixEntriesIn,
        List.filterMap_cons] <;>
      first
        | exact ih st
        | exact ih _

/-- One successful step followed by a successful loop tail. -/
theorem recvLoop_cons_ok (local_if_mac : List Nat) (o : Dhcp6Option)
    (st st2 st1 : Recv6State) (rest : List Dhcp6Option)
    (h : Dhcp6Client.recvLoop local_if_mac st (o :: rest) = .ok st1)
    (hstep : Dhcp6Client.recvStep local_if_mac st o = .ok st2) :
    Dhcp6Client.recvLoop local_if_mac st2 rest = .ok st1 := by
  simp only [Dhcp6Client.recvLoop, hstep] at h
  exact h

/-- Through a successful v6 receive loop, the prefix locals are the
overwrite fold of all IA-Prefix entries and the T1/T2 locals the
overwrite fold of all container T1/T2 pairs. -/
theorem recvLoop_pd_spec (local_if_mac : List Nat) :
    ∀ (opts : List Dhcp6Option) (st st1 : Recv6State),
      Dhcp6Client.recvLoop local_if_mac st opts = .ok st1 →
      pdQuad st1 = (iaPrefixEntries opts).foldl (fun _ e => quadOfEntry e) (pdQuad st) ∧
      tPair st1 = (tEntries opts).foldl (fun _ p => p) (tPair st) := by
  intro opts
  induction opts with
  | nil =>
    intro st st1 h
    simp only [Dhcp6Client.recvLoop, Except.ok.injEq] at h
    subst h
    exact ⟨rfl, rfl⟩
  | cons o rest ih =>
    intro st st1 h
    cases o with
    | clientId id =>
      rcases eq_or_ne id (Dhcp6Client.local_duid local_if_mac) with hid | hid
      · have hstep : Dhcp6Client.recvStep local_if_mac st (.clientId id) =
            .ok { st with client_id := some id } := by
          simp [Dhcp6Client.recvStep, hid]
        obtain ⟨hq, ht⟩ := ih _ _ (recvLoop_cons_ok local_if_mac _ st _ st1 rest h hstep)
        exact ⟨by rw [iaPrefixEntries_cons]; simpa [pdQuad, iaPrefixEntriesOf] using hq,
               by rw [tEntries_cons]; simpa [tPair, tEntriesOf] using ht⟩
      · have hstep := recvStep_clientId_error local_if_mac id hid st
        simp only [Dhcp6Client.recvLoop, hstep] at h
        exact absurd h (by simp)
    | serverId id =>
      obtain ⟨hq, ht⟩ := ih _ _ (recvLoop_cons_ok local_if_mac _ st _ st1 rest h rfl)
      exact ⟨by rw [iaPrefixEntries_cons]; simpa [pdQuad, iaPrefixEntriesOf] using hq,
             by rw [tEntries_cons]; simpa [tPair, tEntriesOf] using ht⟩
    | statusCode s m0 =>
      cases s with
      | success =>
        obtain ⟨hq, ht⟩ := ih _ _ (recvLoop_cons_ok local_if_mac _ st _ st1 rest h rfl)
        exact ⟨by rw [iaPrefixEntries_cons]; simpa [pdQuad, iaPrefixEntriesOf] using hq,
               by rw [tEntries_cons]; simpa [tPair, tEntriesOf] using ht⟩
      | unspecFail =>
        simp only [Dhcp6Client.recvLoop, Dhcp6Client.recvStep] at h
        exact absurd h (by simp)
      | noAddrsAvail =>
        simp only [Dhcp6Client.recvLoop, Dhcp6Client.recvStep] at h
        exact absurd h (by simp)
      | noBinding =>
        simp only [Dhcp6Client.recvLoop, Dhcp6Client.recvStep] at h
        exact absurd h (by simp)
      | notOnLink =>
        simp only [Dhcp6Client.recvLoop, Dhcp6Client.recvStep] at h
        exact absurd h (by simp)
      | useMulticast =>
        simp only [Dhcp6Client.recvLoop, Dhcp6Client.recvStep] at h
        exact absurd h (by simp)
      | noPrefixAvail =>
        simp only [Dhcp6Client.recvLoop, Dhcp6Client.recvStep] at h
        exact absurd h (by simp)
    | domainNameServers srv =>
      obtain ⟨hq, ht⟩ := ih _ _ (recvLoop_cons_ok local_if_mac _ st _ st1 rest h rfl)
      exact ⟨by rw [iaPrefixEntries_cons]; simpa [pdQuad, iaPrefixEntriesOf] using hq,
             by rw [tEntries_cons]; simpa [tPair, tEntriesOf] using ht⟩
    | domainSearchList l =>
      obtain ⟨hq, ht⟩ := ih _ _ (recvLoop_cons_ok local_if_mac _ st _ st1 rest h rfl)
      exact ⟨by rw [iaPrefixEntries_cons]; simpa [pdQuad, iaPrefixEntriesOf] using hq,
             by rw [tEntries_cons]; simpa [tPair, tEntriesOf] using ht⟩
    | iapd iid a b inner =>
      obtain ⟨hq, ht⟩ := ih _ _ (recvLoop_cons_ok local_if_mac _ st _ st1 rest h rfl)
      obtain ⟨hfq, hft⟩ := iapdFold_spec inner { st with t1 := a, t2 := b }
      refine ⟨?_, ?_⟩
      · rw [iaPrefixEntries_cons, List.foldl_append, hq, hfq]
        rfl
      · rw [tEntries_cons, ht, hft]
        rfl
    | iaPrefixVal pl vl ip plen opts0 =>
      obtain ⟨hq, ht⟩ := ih _ _ (recvLoop_cons_ok local_if_mac _ st _ st1 rest h rfl)
      exact ⟨by rw [iaPrefixEntries_cons]; simpa [pdQuad, iaPrefixEntriesOf] using hq,
             by rw [tEntries_cons]; simpa [tPair, tEntriesOf] using ht⟩
    | vendorClassOpt num d =>
      obtain ⟨hq, ht⟩ := ih _ _ (recvLoop_cons_ok local_if_mac _ st _ st1 rest h rfl)
      exact ⟨by rw [iaPrefixEntries_cons]; simpa [pdQuad, iaPrefixEntriesOf] using hq,
             by rw [tEntries_cons]; simpa [tPair, tEntriesOf] using ht⟩
    | elapsedTime t =>
      obtain ⟨hq, ht⟩ := ih _ _ (recvLoop_cons_ok local_if_mac _ st _ st1 rest h rfl)
      exact ⟨by rw [iaPrefixEntries_cons]; simpa [pdQuad, iaPrefixEntriesOf] using hq,
             by rw [tEntries_cons]; simpa [tPair, tEntriesOf] using ht⟩
    | oro codes =>
      obtain ⟨hq, ht⟩ := ih _ _ (recvLoop_cons_ok local_if_mac _ st _ st1 rest h rfl)
      exact ⟨by rw [iaPrefixEntries_cons]; simpa [pdQuad, iaPrefixEntriesOf] using hq,
             by rw [tEntries_cons]; simpa [tPair, tEntriesOf] using ht⟩
    | unknown code d =>
      cases code with
      | iapd =>
        obtain ⟨hq, ht⟩ := ih _ _ (recvLoop_cons_ok local_if_mac _ st _ st1 rest h rfl)
        exact ⟨by rw [iaPrefixEntries_cons]; simpa [pdQuad, iaPrefixEntriesOf] using hq,
               by rw [tEntries_cons]; simpa [tPair, tEntriesOf] using ht⟩
      | sipServerA =>
        obtain ⟨hq, ht⟩ := ih _ _ (recvLoop_cons_ok local_if_mac _ st _ st1 rest h rfl)
        exact ⟨by rw [iaPrefixEntries_cons]; simpa [pdQuad, iaPrefixEntriesOf] using hq,
               by rw [tEntries_cons]; simpa [tPair, tEntriesOf] using ht⟩
      | sntpServers =>
        obtain ⟨hq, ht⟩ := ih _ _ (recvLoop_cons_ok local_if_mac _ st _ st1 rest h rfl)
        exact ⟨by rw [iaPrefixEntries_cons]; simpa [pdQuad, iaPrefixEntriesOf] using hq,
               by rw [tEntries_cons]; simpa [tPair, tEntriesOf] using ht⟩
      | domainNameServers =>
        obtain ⟨hq, ht⟩ := ih _ _ (recvLoop_cons_ok local_if_mac _ st _ st1 rest h rfl)
        exact ⟨by rw [iaPrefixEntries_cons]; simpa [pdQuad, iaPrefixEntriesOf] using hq,
               by rw [tEntries_cons]; simpa [tPair, tEntriesOf] using ht⟩
      | domainSearchList =>
        obtain ⟨hq, ht⟩ := ih _ _ (recvLoop_cons_ok local_if_mac _ st _ st1 rest h rfl)
        exact ⟨by rw [iaPrefixEntries_cons]; simpa [pdQuad, iaPrefixEntriesOf] using hq,
               by rw [tEntries_cons]; simpa [tPair, tEntriesOf] using ht⟩
      | other n =>
        obtain ⟨hq, ht⟩ := ih _ _ (recvLoop_cons_ok local_if_mac _ st _ st1 rest h rfl)
        exact ⟨by rw [iaPrefixEntries_cons]; simpa [pdQuad, iaPrefixEntriesOf] using hq,
               by rw [tEntries_cons]; simpa [tPair, tEntriesOf] using ht⟩

/-- A fold that replaces its accumulator by each element yields the last
element, or the start value on an empty list. -/
theorem foldl_keep_getLast {α : Type} :
    ∀ (l : List α) (init : α), l.foldl (fun _ a => a) init = l.getLast?.getD init := by
  intro l
  induction l with
  | nil => intro init; rfl
  | cons a t ih =>
    intro init
    cases t with
    | nil => rfl
    | cons b t' =>
      obtain ⟨x, hx⟩ := getLast?_cons_isSome b t'
      rw [List.foldl_cons, ih a, List.getLast?_cons_cons, hx]
      rfl

/-- C2 (amended): for every v6 message accepted by recv, the pd field is
absent when no IA-PD container holds an IA-Prefix option, and otherwise
carries exactly the last IA-Prefix option found inside the IA-PD
containers in option order (not the first), with that prefix's address,
length and lifetimes and the T1/T2 of the last IA-PD container. -/
theorem c2_pd_is_last_entry (local_if_mac : List Nat)
    (expected : Dhcp6MessageType) (msg : Dhcp6Message) (r : Dhcp6Response)
    (h : Dhcp6Client.recv local_if_mac expected msg = .ok r) :
    r.pd = pdOfOptions msg.opts := by
  by_cases hty : msg.msg_type = expected
  · rw [Dhcp6Client.recv, if_neg (by simp [hty])] at h
    cases hloop : Dhcp6Client.recvLoop local_if_mac Dhcp6Client.initRecv6 msg.opts with
    | error e =>
      rw [hloop] at h
      exact absurd h (by simp)
    | ok st =>
      rw [hloop] at h
      obtain ⟨hq, htp⟩ := recvLoop_pd_spec local_if_mac msg.opts _ st hloop
      rw [foldl_overwrite_getLast quadOfEntry] at hq
      rw [foldl_keep_getLast] at htp
      cases hlast : (iaPrefixEntries msg.opts).getLast? with
      | none =>
        rw [hlast] at hq
        simp only [Option.map_none', Option.getD_none, pdQuad,
          Dhcp6Client.initRecv6, Prod.mk.injEq] at hq
        obtain ⟨hpl, hvl, hip, hlen⟩ := hq
        cases hc : st.client_id with
        | none =>
          simp only [Dhcp6Client.finalize, hc] at h
          exact absurd h (by simp)
        | some cid =>
          cases hs : st.server_id with
          | none =>
            simp only [Dhcp6Client.finalize, hc, hs] at h
            exact absurd h (by simp)
          | some sid =>
            simp only [Dhcp6Client.finalize, hc, hs, hip, hlen,
              RecvOutcome.ok.injEq] at h
            rw [pdOfOptions, hlast, ← h]
      | some e =>
        obtain ⟨pl, vl, ip, plen⟩ := e
        rw [hlast] at hq
        simp only [Option.map_some', Option.getD_some, pdQuad, quadOfEntry,
          Prod.mk.injEq] at hq
        obtain ⟨hpl, hvl, hip, hlen⟩ := hq
        have ht1 : st.t1 = (lastT1T2 msg.opts).1 := by
          rw [lastT1T2]
          exact congrArg Prod.fst htp
        have ht2 : st.t2 = (lastT1T2 msg.opts).2 := by
          rw [lastT1T2]
          exact congrArg Prod.snd htp
        cases hc : st.client_id with
        | none =>
          simp only [Dhcp6Client.finalize, hc] at h
          exact absurd h (by simp)
        | some cid =>
          cases hs : st.server_id with
          | none =>
            simp only [Dhcp6Client.finalize, hc, hs] at h
            exact absurd h (by simp)
          | some sid =>
            simp only [Dhcp6Client.finalize, hc, hs, hip, hlen, hpl, hvl,
              ht1, ht2, RecvOutcome.ok.injEq] at h
            rw [pdOfOptions, hlast, ← h]
  · rw [Dhcp6Client.recv, if_pos (by simp [hty])] at h
    exact absurd h (by simp)

/-- C2 counterexample: on a container holding two IA-Prefix options, recv
returns the value of the second (last) IA-Prefix, not the first one the
claim promises. -/
theorem c2_counterexample :
    Dhcp6Client.recv [2, 2, 2, 2, 2, 2] .reply msgC2 = .ok respC2 ∧
    respC2.pd = some pdSecondC2 ∧ pdSecondC2 ≠ pdFirstC2 :=
  ⟨rfl, rfl, by decide⟩

/-- Witness for C2 (amended) on msgC2. -/
theorem c2_witness : respC2.pd = pdOfOptions msgC2.opts :=
  c2_pd_is_last_entry [2, 2, 2, 2, 2, 2] .reply msgC2 respC2 rfl

/-- Witness for C5 (amended) at a concrete MAC, address and identifier. -/
theorem c5_witness :
    (Dhcp4Client.request [1, 2, 3, 4, 5, 6] .select ⟨10, 0, 0, 9⟩ ⟨10, 0, 0, 1⟩).ciaddr = ipv4Zero ∧
    (Dhcp4Client.request [1, 2, 3, 4, 5, 6] .select ⟨10, 0, 0, 9⟩ ⟨10, 0, 0, 1⟩).yiaddr = ipv4Zero ∧
    (Dhcp4Client.request [1, 2, 3, 4, 5, 6] .select ⟨10, 0, 0, 9⟩ ⟨10, 0, 0, 1⟩).giaddr = ipv4Zero ∧
    (Dhcp4Client.request [1, 2, 3, 4, 5, 6] .select ⟨10, 0, 0, 9⟩ ⟨10, 0, 0, 1⟩).siaddr = ⟨10, 0, 0, 1⟩ ∧
    Dhcp4Option.requestedIpAddress ⟨10, 0, 0, 9⟩ ∈
      (Dhcp4Client.request [1, 2, 3, 4, 5, 6] .select ⟨10, 0, 0, 9⟩ ⟨10, 0, 0, 1⟩).opts ∧
    Dhcp4Option.serverIdentifier ⟨10, 0, 0, 1⟩ ∈
      (Dhcp4Client.request [1, 2, 3, 4, 5, 6] .select ⟨10, 0, 0, 9⟩ ⟨10, 0, 0, 1⟩).opts :=
  c5_select_request [1, 2, 3, 4, 5, 6] ⟨10, 0, 0, 9⟩ ⟨10, 0, 0, 1⟩

/-- Witness for C6 (amended) on a concrete Renew request. -/
theorem c6_witness :
    Dhcp4Option.parameterRequestList
        [.subnetMask, .router, .unknownCode 120, .classlessStaticRoute, .unknownCode 125] ∈
      (Dhcp4Client.request [1, 2, 3, 4, 5, 6] .renew ⟨10, 0, 0, 9⟩ ⟨10, 0, 0, 1⟩).opts ∧
    Dhcp4Option.maxMessageSize 1200 ∈
      (Dhcp4Client.request [1, 2, 3, 4, 5, 6] .renew ⟨10, 0, 0, 9⟩ ⟨10, 0, 0, 1⟩).opts ∧
    Dhcp4Option.clientIdentifier [1, 2, 3, 4, 5, 6] ∈
      (Dhcp4Client.request [1, 2, 3, 4, 5, 6] .renew ⟨10, 0, 0, 9⟩ ⟨10, 0, 0, 1⟩).opts ∧
    Dhcp4Option.unknown 124 (u32BeBytes 210 ++ [7, 6] ++ [1, 2, 3, 4, 5, 6]) ∈
      (Dhcp4Client.request [1, 2, 3, 4, 5, 6] .renew ⟨10, 0, 0, 9⟩ ⟨10, 0, 0, 1⟩).opts :=
  c6_request_common_options [1, 2, 3, 4, 5, 6] .renew ⟨10, 0, 0, 9⟩ ⟨10, 0, 0, 1⟩
